import Mathlib

/-!
Verification development for the transaction-pool service and block-commit
adapter of a blockchain node (fuel-core txpool service and block importer
adapter).  The Rust source is shallowly embedded: pure functions become Lean
functions, the mutex-guarded pool becomes explicit state passing (one Lean
function call corresponds to one critical section under the pool lock), the
tokio broadcast channels become a log of sent messages plus a subscriber
count, and the nondeterministic `tokio::select!` branch choice becomes an
explicit event argument to the embedded `run` function.
-/

/-- Transaction id: 32-byte hash, embedded as a natural number. -/
abbrev Bytes32 := Nat

/-- `TxId` is an alias for `Bytes32` in the source. -/
abbrev TxId := Bytes32

/-- Modelled from the spec: the txpool `Error` type is not under `src/`
(only used through it); the spec lists fee/gas validation failure,
conflicting-spend detection, unmet dependency, and administrative removal as
rejection/eviction reasons. -/
inductive TxPoolError where
  | insufficientFee
  | conflictingSpend
  | invalidTransaction
  | unmetDependency
  | removed
deriving DecidableEq, Repr

/-- `TxStatus` as used by `TxStatusChange` in the source: `Submitted`,
`Completed`, or `SqueezedOut { reason }`. -/
inductive TxStatus where
  | Submitted
  | Completed
  | SqueezedOut (reason : TxPoolError)
deriving DecidableEq, Repr

/-- `TxUpdate` from the source: a keyed record `{ tx_id, squeezed_out }`
where `squeezed_out = none` means updated/still pending or completed. -/
structure TxUpdate where
  tx_id : Bytes32
  squeezed_out : Option TxPoolError
deriving DecidableEq, Repr

/-- `TxUpdate::updated(tx_id)` from the source. -/
def TxUpdate.updated (tx_id : Bytes32) : TxUpdate :=
  { tx_id := tx_id, squeezed_out := none }

/-- `TxUpdate::squeezed_out(tx_id, reason)` from the source (renamed to
avoid the clash with the field of the same name). -/
def TxUpdate.squeezedOut (tx_id : Bytes32) (reason : TxPoolError) : TxUpdate :=
  { tx_id := tx_id, squeezed_out := some reason }

/-- `TxUpdate::was_squeezed_out` from the source. -/
def TxUpdate.was_squeezed_out (u : TxUpdate) : Bool :=
  u.squeezed_out.isSome

/-- `TxUpdate::into_squeezed_out_reason` from the source. -/
def TxUpdate.into_squeezed_out_reason (u : TxUpdate) : Option TxPoolError :=
  u.squeezed_out

/-- Modelled from the spec: a `tokio::sync::broadcast::Sender`.  The channel
internals are not under `src/`; per the spec it is a bounded topic with a
fixed capacity, publishing never blocks, and a send with zero subscribers
fails (the error being discarded by every caller in the source).  `log`
records every message the producer emitted, in order. -/
structure BroadcastSender (α : Type) where
  capacity : Nat
  subscribers : Nat
  log : List α
deriving DecidableEq, Repr

/-- Modelled from the spec: `broadcast::channel(capacity)` creates a sender
with the given capacity and no subscribers yet. -/
def broadcastChannel (α : Type) (capacity : Nat) : BroadcastSender α :=
  { capacity := capacity, subscribers := 0, log := [] }

/-- Modelled from the spec: `Sender::send` records the emission and reports
an error exactly when there are zero subscribers; it never blocks. -/
def BroadcastSender.send (s : BroadcastSender α) (msg : α) :
    BroadcastSender α × Except Unit Nat :=
  ({ s with log := s.log ++ [msg] },
   if s.subscribers = 0 then Except.error () else Except.ok s.subscribers)

/-- `TxStatusChange` from the source: the pair of broadcast senders for the
coarse status topic and the keyed update topic. -/
structure TxStatusChange where
  status_sender : BroadcastSender TxStatus
  update_sender : BroadcastSender TxUpdate
deriving DecidableEq, Repr

/-- `TxStatusChange::new(capacity)` from the source: both channels are
created with the same capacity. -/
def TxStatusChange.new (capacity : Nat) : TxStatusChange :=
  { status_sender := broadcastChannel TxStatus capacity,
    update_sender := broadcastChannel TxUpdate capacity }

/-- `TxStatusChange::updated(id)` from the source: sends the keyed update
with no squeeze-out reason, discarding the send result. -/
def TxStatusChange.updated (c : TxStatusChange) (id : Bytes32) : TxStatusChange :=
  { c with update_sender := (c.update_sender.send (TxUpdate.updated id)).1 }

/-- `TxStatusChange::send_complete(id)` from the source: one `Completed`
status followed by one keyed `{id, none}` update; both send results are
discarded. -/
def TxStatusChange.send_complete (c : TxStatusChange) (id : Bytes32) : TxStatusChange :=
  TxStatusChange.updated
    { c with status_sender := (c.status_sender.send TxStatus.Completed).1 } id

/-- `TxStatusChange::send_submitted(id)` from the source: one `Submitted`
status followed by one keyed `{id, none}` update. -/
def TxStatusChange.send_submitted (c : TxStatusChange) (id : Bytes32) : TxStatusChange :=
  TxStatusChange.updated
    { c with status_sender := (c.status_sender.send TxStatus.Submitted).1 } id

/-- `TxStatusChange::send_squeezed_out(id, reason)` from the source: one
`SqueezedOut { reason }` status and one keyed `{id, some reason}` update,
with the same id and the same reason. -/
def TxStatusChange.send_squeezed_out (c : TxStatusChange) (id : Bytes32)
    (reason : TxPoolError) : TxStatusChange :=
  { c with
    status_sender := (c.status_sender.send (TxStatus.SqueezedOut reason)).1,
    update_sender := (c.update_sender.send (TxUpdate.squeezedOut id reason)).1 }

/-- Modelled from the spec: a pool transaction.  The transaction type itself
is external; the core only needs its id, its gas usage and its (effective)
gas price for selection ordering. -/
structure PoolTx where
  id : TxId
  gas : Nat
  price : Nat
deriving DecidableEq, Repr

/-- Modelled from the spec: the pool-internal structure is out of scope; the
pool is embedded as the list of live entries, in insertion order. -/
structure TxPool where
  txs : List PoolTx
deriving DecidableEq, Repr

/-- Modelled from the spec: `TxPool::new` starts empty (config and database
port dropped: admission validity is supplied as an oracle at each insert). -/
def TxPool.new : TxPool := { txs := [] }

/-- `pending_number()`: number of live pool entries. -/
def TxPool.pending_number (p : TxPool) : Nat := p.txs.length

/-- `consumable_gas()`: total gas over current pool contents. -/
def TxPool.consumable_gas (p : TxPool) : Nat :=
  (p.txs.map PoolTx.gas).sum

/-- `find_one(id)`: read-only lookup, `none` for absent ids. -/
def TxPool.find_one (p : TxPool) (i : TxId) : Option PoolTx :=
  p.txs.find? (fun t => t.id == i)

/-- `find(ids)`: read-only lookup of several ids. -/
def TxPool.find (p : TxPool) (ids : List TxId) : List (Option PoolTx) :=
  ids.map (fun i => p.find_one i)

/-- `includable()`: the admissible-for-selection subset.  Modelled from the
spec: the dependency structure is out of scope, so every live entry is
admissible in this embedding. -/
def TxPool.includable (p : TxPool) : List PoolTx := p.txs

/-- `remove_committed_tx(id)`: eviction caused by block inclusion; removes
the entry and emits nothing (the caller is responsible for any status). -/
def TxPool.remove_committed_tx (p : TxPool) (i : TxId) : TxPool :=
  { txs := p.txs.filter (fun t => t.id ≠ i) }

/-- Modelled from the spec: admission of one transaction.  A duplicate live
id is rejected (no duplicate live entries invariant); otherwise the supplied
validity oracle (standing for the pool database port) decides admission.
Each accepted transaction emits a `Submitted` status and a keyed update with
no squeeze-out reason; a rejected transaction emits nothing. -/
def TxPool.insert_one (p : TxPool) (c : TxStatusChange) (valid : PoolTx → Bool)
    (tx : PoolTx) : TxPool × TxStatusChange × Except TxPoolError PoolTx :=
  if p.txs.any (fun t => t.id == tx.id) then
    (p, c, Except.error TxPoolError.conflictingSpend)
  else if valid tx then
    ({ txs := p.txs ++ [tx] }, c.send_submitted tx.id, Except.ok tx)
  else
    (p, c, Except.error TxPoolError.invalidTransaction)

/-- Modelled from the spec: `insert(status_sink, txs)` admits each
transaction in order; per-transaction results are independent, one failure
does not abort the batch. -/
def TxPool.insert (p : TxPool) (c : TxStatusChange) (valid : PoolTx → Bool)
    (txs : List PoolTx) :
    TxPool × TxStatusChange × List (Except TxPoolError PoolTx) :=
  match txs with
  | [] => (p, c, [])
  | tx :: rest =>
    let r := p.insert_one c valid tx
    let rs := r.1.insert r.2.1 valid rest
    (rs.1, rs.2.1, r.2.2 :: rs.2.2)

/-- Modelled from the spec: explicit eviction of one id; a removed
transaction emits a `SqueezedOut` status/update pair with the removal
reason. -/
def TxPool.remove_one (p : TxPool) (c : TxStatusChange) (i : TxId) :
    TxPool × TxStatusChange × List PoolTx :=
  match p.txs.find? (fun t => t.id == i) with
  | some t =>
    ({ txs := p.txs.filter (fun s => s.id ≠ i) },
     c.send_squeezed_out i TxPoolError.removed, [t])
  | none => (p, c, [])

/-- Modelled from the spec: `remove(status_sink, ids)`, explicit eviction of
several ids. -/
def TxPool.remove (p : TxPool) (c : TxStatusChange) (ids : List TxId) :
    TxPool × TxStatusChange × List PoolTx :=
  match ids with
  | [] => (p, c, [])
  | i :: rest =>
    let r := p.remove_one c i
    let rs := r.1.remove r.2.1 rest
    (rs.1, rs.2.1, r.2.2 ++ rs.2.2)

/-- Modelled from the spec: one step of `block_update` — a transaction of
the committed block that is present in the pool is removed as committed and
emits a `Completed` status; an absent one is skipped. -/
def TxPool.block_update_one (p : TxPool) (c : TxStatusChange) (tx : PoolTx) :
    TxPool × TxStatusChange :=
  if p.txs.any (fun t => t.id == tx.id) then
    (p.remove_committed_tx tx.id, c.send_complete tx.id)
  else (p, c)

/-- Modelled from the spec: `block_update(status_sink, sealed_block)` —
every transaction in the committed block present in the pool is removed as
committed with a `Completed` status.  (The additional eviction of
now-invalid transactions is left unspecified by the given material and is
not modelled.) -/
def TxPool.block_update (p : TxPool) (c : TxStatusChange) (block : List PoolTx) :
    TxPool × TxStatusChange :=
  match block with
  | [] => (p, c)
  | tx :: rest =>
    let r := p.block_update_one c tx
    r.1.block_update r.2 rest

/-- Modelled from the spec: the peer-transport port.  `broadcasts` logs every
`broadcast_transaction` call, in order, by transaction id. -/
structure P2PState where
  broadcasts : List TxId
deriving DecidableEq, Repr

/-- Modelled from the spec: `broadcast_transaction` records the outbound
call and may fail (network/backpressure); the outcome is supplied by an
oracle and is non-fatal to the caller. -/
def P2PState.broadcast_transaction (p : P2PState) (i : TxId) (ok : Bool) :
    P2PState × Except Unit Unit :=
  ({ broadcasts := p.broadcasts ++ [i] },
   if ok then Except.ok () else Except.error ())

/-- `SharedState` from the source: the status/update sink, the guarded pool
and the peer-transport handle. -/
structure SharedState where
  tx_status_sender : TxStatusChange
  txpool : TxPool
  p2p : P2PState
deriving DecidableEq, Repr

/-- `SharedState::pending_number` from the source. -/
def SharedState.pending_number (s : SharedState) : Nat :=
  s.txpool.pending_number

/-- `SharedState::total_consumable_gas` from the source. -/
def SharedState.total_consumable_gas (s : SharedState) : Nat :=
  s.txpool.consumable_gas

/-- `SharedState::find` from the source. -/
def SharedState.find (s : SharedState) (ids : List TxId) : List (Option PoolTx) :=
  s.txpool.find ids

/-- `SharedState::find_one` from the source. -/
def SharedState.find_one (s : SharedState) (i : TxId) : Option PoolTx :=
  s.txpool.find_one i

/-- Modelled from the spec: the selection order — higher effective gas price
first, ties broken by the stable secondary key (insertion order).  Mathlib's
`insertionSort` is stable, so equal prices keep their input order. -/
def selectionOrder (a b : PoolTx) : Prop := b.price ≤ a.price

instance : DecidableRel selectionOrder := fun a b => by
  unfold selectionOrder; infer_instance

/-- One step of the greedy selection fold: take the candidate when its gas
still fits in the budget, skip it otherwise. -/
def selectStep (max_gas : Nat) (st : List PoolTx × Nat) (tx : PoolTx) :
    List PoolTx × Nat :=
  if st.2 + tx.gas ≤ max_gas then (st.1 ++ [tx], st.2 + tx.gas) else st

/-- Modelled from the spec: the gas-bounded greedy selection algorithm
(`transaction_selector::select_transactions`, not under `src/`): iterate the
candidates in priority order, accumulating gas usage and skipping any
candidate whose gas would exceed `max_gas`. -/
def TransactionSelector.select_transactions (txs : List PoolTx) (max_gas : Nat) : List PoolTx :=
  ((txs.insertionSort selectionOrder).foldl (selectStep max_gas) ([], 0)).1

/-- `SharedState::select_transactions(max_gas)` from the source: under one
lock acquisition (one state transition here), take the includable view, run
the selection algorithm, then remove every selected transaction from the
pool as committed, and return the ordered selection. -/
def SharedState.select_transactions (s : SharedState) (max_gas : Nat) :
    SharedState × List PoolTx :=
  let txs := s.txpool.includable
  let sorted_txs := TransactionSelector.select_transactions txs max_gas
  let guard := sorted_txs.foldl (fun p tx => p.remove_committed_tx tx.id) s.txpool
  ({ s with txpool := guard }, sorted_txs)

/-- `SharedState::remove_txs` / `SharedState::remove` from the source: both
delegate to the pool `remove` with the status sink. -/
def SharedState.remove_txs (s : SharedState) (ids : List TxId) :
    SharedState × List PoolTx :=
  let r := s.txpool.remove s.tx_status_sender ids
  ({ s with txpool := r.1, tx_status_sender := r.2.1 }, r.2.2)

/-- The broadcast step of `SharedState::insert` from the source: walk the
insertion results zipped with the transactions; on `Ok` attempt one
broadcast (a failure is only logged), on `Err` do nothing. -/
def broadcastAccepted (p2p : P2PState) (bcast_ok : TxId → Bool) :
    List (Except TxPoolError PoolTx × PoolTx) → P2PState
  | [] => p2p
  | (Except.ok _, tx) :: rest =>
    let r := p2p.broadcast_transaction tx.id (bcast_ok tx.id)
    broadcastAccepted r.1 bcast_ok rest
  | (Except.error _, _) :: rest => broadcastAccepted p2p bcast_ok rest

/-- `SharedState::insert(txs)` from the source: insert the batch into the
pool under the lock, then, outside the lock, attempt one peer broadcast per
accepted transaction; broadcast failures are logged and ignored, and the
per-transaction insertion results are returned unchanged. -/
def SharedState.insert (s : SharedState) (valid : PoolTx → Bool)
    (bcast_ok : TxId → Bool) (txs : List PoolTx) :
    SharedState × List (Except TxPoolError PoolTx) :=
  let ins := s.txpool.insert s.tx_status_sender valid txs
  let p2p := broadcastAccepted s.p2p bcast_ok (ins.2.2.zip txs)
  ({ tx_status_sender := ins.2.1, txpool := ins.1, p2p := p2p }, ins.2.2)

/-- `GossipData` from the source: a gossip envelope whose payload may be
absent. -/
structure GossipData where
  data : Option PoolTx
deriving DecidableEq, Repr

/-- `ImportResult` from the source: the sealed block (embedded as its
transaction list) reaching the pool service task. -/
structure ImportResult where
  sealed_block : List PoolTx
deriving DecidableEq, Repr

/-- One tokio select outcome of the `Task::run` wait point: either the
lifecycle watcher reports no longer started, or one of the two streams
yields (`none` standing for a terminated stream). -/
inductive RunEvent where
  | watcherStopped
  | gossip (item : Option GossipData)
  | committedBlock (item : Option ImportResult)
deriving DecidableEq, Repr

/-- `Task` from the source (renamed: `Task` is taken by core Lean), with
the two streams left external: the run function consumes one already-chosen
`RunEvent` per iteration. -/
structure ServiceTask where
  shared : SharedState
deriving DecidableEq, Repr

/-- `Task::run` from the source: services exactly one ready event per
iteration and returns `should_continue`.  The watcher branch returns
`false`; a gossip item carrying a transaction is inserted into the pool
(with the status sink, never touching the p2p port) and returns `true`;
any other gossip outcome returns `false`; a committed-block notification
triggers `block_update` and returns `true`; a terminated block stream
returns `false`. -/
def ServiceTask.run (t : ServiceTask) (valid : PoolTx → Bool) (ev : RunEvent) : ServiceTask × Bool :=
  match ev with
  | RunEvent.watcherStopped => (t, false)
  | RunEvent.gossip item =>
    match item with
    | some g =>
      match g.data with
      | some tx =>
        let r := t.shared.txpool.insert t.shared.tx_status_sender valid [tx]
        ({ shared := { t.shared with txpool := r.1, tx_status_sender := r.2.1 } },
         true)
      | none => (t, false)
    | none => (t, false)
  | RunEvent.committedBlock item =>
    match item with
    | some res =>
      let r := t.shared.txpool.block_update t.shared.tx_status_sender
        res.sealed_block
      ({ shared := { t.shared with txpool := r.1, tx_status_sender := r.2 } },
       true)
    | none => (t, false)

/-- `new_service` from the source, restricted to the state it wires: a fresh
pool and a `TxStatusChange` with capacity 100 on both topics; the streams
are obtained from the ports and stay external to the embedding. -/
def new_service (p2p : P2PState) : ServiceTask :=
  { shared :=
    { tx_status_sender := TxStatusChange.new 100,
      txpool := TxPool.new,
      p2p := p2p } }

/-- Modelled from the spec: the storage port's insert-style write over an
association list — stores the new value under the key and returns the
previous value if one existed rather than failing on overwrite. -/
def assocInsert (m : List (Nat × Nat)) (k v : Nat) :
    List (Nat × Nat) × Option Nat :=
  ((k, v) :: m.filter (fun e => e.1 ≠ k),
   (m.find? (fun e => e.1 == k)).map (fun e => e.2))

/-- Read-only lookup in the association-list storage model. -/
def assocLookup (m : List (Nat × Nat)) (k : Nat) : Option Nat :=
  (m.find? (fun e => e.1 == k)).map (fun e => e.2)

/-- Modelled from the spec: the database state visible to the block-commit
protocol — the `SealedBlockConsensus` column (block id to consensus seal),
the `FuelBlockRoots` column (height to header merkle root) and the latest
known height marker.  Block ids, consensus seals and roots are embedded as
naturals. -/
structure Database where
  sealed_block_consensus : List (Nat × Nat)
  block_header_merkle_roots : List (Nat × Nat)
  latest_height_marker : Option Nat
deriving DecidableEq, Repr

/-- `ExecutorDatabase::seal_block` from the source: insert into the
`SealedBlockConsensus` column, returning the prior seal when one existed. -/
def Database.seal_block (db : Database) (block_id : Nat) (consensus : Nat) :
    Database × Option Nat :=
  let r := assocInsert db.sealed_block_consensus block_id consensus
  ({ db with sealed_block_consensus := r.1 }, r.2)

/-- `ExecutorDatabase::insert_block_header_merkle_root` from the source:
insert into the `FuelBlockRoots` column, returning the prior root when one
existed. -/
def Database.insert_block_header_merkle_root (db : Database) (height : Nat)
    (root : Nat) : Database × Option Nat :=
  let r := assocInsert db.block_header_merkle_roots height root
  ({ db with block_header_merkle_roots := r.1 }, r.2)

/-- `ImporterDatabase::latest_block_height` from the source: read-only query
of the latest known height. -/
def Database.latest_block_height (db : Database) : Option Nat :=
  db.latest_height_marker

/-- Modelled from the spec: one staged write of a block's storage
transaction — the consensus seal, the header merkle root for a height, or
the latest-height marker. -/
inductive StagedWrite where
  | sealConsensus (block_id : Nat) (consensus : Nat)
  | headerRoot (height : Nat) (root : Nat)
  | latestHeight (height : Nat)
deriving DecidableEq, Repr

/-- Applying one staged write to the database. -/
def applyWrite (db : Database) : StagedWrite → Database
  | StagedWrite.sealConsensus i c => (db.seal_block i c).1
  | StagedWrite.headerRoot h r => (db.insert_block_header_merkle_root h r).1
  | StagedWrite.latestHeight h => { db with latest_height_marker := some h }

/-- Modelled from the spec: a scoped, not-yet-applied storage transaction —
the ordered list of staged writes, deferred until one atomic commit. -/
structure StorageTransaction where
  writes : List StagedWrite
deriving DecidableEq, Repr

/-- Modelled from the spec: `UncommittedResult` pairs an application-level
result value with a not-yet-applied storage transaction. -/
structure UncommittedResult (α : Type) where
  result : α
  tx : StorageTransaction

/-- Modelled from the spec: the atomic commit of the storage-transaction
port: when the underlying engine succeeds (oracle `storage_ok`), every
staged write becomes durable together; on failure the transaction is
discarded and the database is unchanged. -/
def StorageTransaction.commit (t : StorageTransaction) (db : Database)
    (storage_ok : Bool) : Database × Except Unit Unit :=
  if storage_ok then (t.writes.foldl applyWrite db, Except.ok ())
  else (db, Except.error ())

/-- `BlockImporter::commit_result` from the source, which delegates to
`Importer::commit_result`; the importer internals are not under `src/` and
are modelled from the spec as applying the wrapped storage transaction
exactly once, atomically. -/
def commit_result (db : Database) (u : UncommittedResult α)
    (storage_ok : Bool) : Database × Except Unit Unit :=
  u.tx.commit db storage_ok

/-- The canonical staging of one block's writes, per the spec: its consensus
seal, its header merkle root at its height, and the updated latest-height
marker, all within the same transaction. -/
def stageBlock (block_id consensus height root : Nat) : StorageTransaction :=
  { writes := [StagedWrite.sealConsensus block_id consensus,
               StagedWrite.headerRoot height root,
               StagedWrite.latestHeight height] }

/-- `BlockVerifier::verify_block_fields` from the source, which delegates to
the verifier internals (not under `src/`); modelled from the spec as a pure
validation call over the consensus value and the block, supplied as an
oracle. -/
def verify_block_fields (verifier : Nat → Nat → Bool) (consensus : Nat)
    (block_id : Nat) : Except Unit Unit :=
  if verifier consensus block_id then Except.ok () else Except.error ()

/-- Modelled from the spec: the import driver (not under `src/`) — the
pre-commit gate `verify_block_fields` must succeed before the block's
storage transaction is committed; a verification failure prevents
`commit_result` from being invoked at all.  The third component reports
whether `commit_result` was invoked. -/
def import_block (verifier : Nat → Nat → Bool) (consensus : Nat)
    (block_id : Nat) (db : Database) (u : UncommittedResult α)
    (storage_ok : Bool) : Database × Except Unit Unit × Bool :=
  match verify_block_fields verifier consensus block_id with
  | Except.error _ => (db, Except.error (), false)
  | Except.ok _ =>
    let r := commit_result db u storage_ok
    (r.1, r.2, true)

/-- The ids of the accepted results in a zipped (result, transaction) list:
exactly the transactions for which the source attempts one peer broadcast. -/
def acceptedIds : List (Except TxPoolError PoolTx × PoolTx) → List TxId
  | [] => []
  | (Except.ok _, tx) :: rest => tx.id :: acceptedIds rest
  | (Except.error _, _) :: rest => acceptedIds rest

/-- A concrete shared state used to instantiate the proved properties: three
pool entries with distinct ids. -/
def sharedExample : SharedState :=
  { tx_status_sender := TxStatusChange.new 100,
    txpool := { txs := [⟨1, 60, 5⟩, ⟨2, 50, 10⟩, ⟨3, 10, 1⟩] },
    p2p := { broadcasts := [] } }

/-- Every call of the broadcast step appends exactly the ids of the accepted
results to the peer-transport log, whatever the broadcast outcomes are. -/
theorem broadcastAccepted_eq (bcast_ok : TxId → Bool) :
    ∀ (l : List (Except TxPoolError PoolTx × PoolTx)) (p2p : P2PState),
    broadcastAccepted p2p bcast_ok l = { broadcasts := p2p.broadcasts ++ acceptedIds l } := by
  intro l
  induction l with
  | nil => intro p2p; simp [broadcastAccepted, acceptedIds]
  | cons hd tl ih =>
    intro p2p
    obtain ⟨r, tx⟩ := hd
    cases r with
    | ok v =>
      simp [broadcastAccepted, acceptedIds, P2PState.broadcast_transaction, ih]
    | error e =>
      simp [broadcastAccepted, acceptedIds, ih]

/-- C1: each `TxStatusChange` sender emits exactly one status message and
exactly one keyed update per event, with matching id and reason: for an
accepted transaction one `Submitted` status and one `{tx_id, none}` update,
for a squeeze-out with reason `r` one `SqueezedOut r` status and one
`{tx_id, some r}` update, for a completion one `Completed` status and one
`{tx_id, none}` update; a rejected insertion and a removal of an absent id
emit nothing. -/
theorem C1_status_update_pairing :
    (∀ (c : TxStatusChange) (id : Bytes32) (r : TxPoolError),
      (c.send_submitted id).status_sender.log
          = c.status_sender.log ++ [TxStatus.Submitted]
      ∧ (c.send_submitted id).update_sender.log
          = c.update_sender.log ++ [TxUpdate.updated id]
      ∧ (c.send_squeezed_out id r).status_sender.log
          = c.status_sender.log ++ [TxStatus.SqueezedOut r]
      ∧ (c.send_squeezed_out id r).update_sender.log
          = c.update_sender.log ++ [TxUpdate.squeezedOut id r]
      ∧ (c.send_complete id).status_sender.log
          = c.status_sender.log ++ [TxStatus.Completed]
      ∧ (c.send_complete id).update_sender.log
          = c.update_sender.log ++ [TxUpdate.updated id])
    ∧ (∀ (p : TxPool) (c : TxStatusChange) (valid : PoolTx → Bool) (tx : PoolTx),
        ((p.insert_one c valid tx).2.2.isOk = true →
          (p.insert_one c valid tx).2.1.status_sender.log
              = c.status_sender.log ++ [TxStatus.Submitted]
          ∧ (p.insert_one c valid tx).2.1.update_sender.log
              = c.update_sender.log ++ [TxUpdate.updated tx.id])
        ∧ ((p.insert_one c valid tx).2.2.isOk = false →
            (p.insert_one c valid tx).2.1 = c))
    ∧ (∀ (p : TxPool) (c : TxStatusChange) (i : TxId),
        ((p.remove_one c i).2.2 ≠ [] →
          (p.remove_one c i).2.1.status_sender.log
              = c.status_sender.log ++ [TxStatus.SqueezedOut TxPoolError.removed]
          ∧ (p.remove_one c i).2.1.update_sender.log
              = c.update_sender.log ++ [TxUpdate.squeezedOut i TxPoolError.removed])
        ∧ ((p.remove_one c i).2.2 = [] → (p.remove_one c i).2.1 = c))
    ∧ (∀ (p : TxPool) (c : TxStatusChange) (tx : PoolTx),
        p.txs.any (fun t => t.id == tx.id) = true →
          (p.block_update_one c tx).2.status_sender.log
              = c.status_sender.log ++ [TxStatus.Completed]
          ∧ (p.block_update_one c tx).2.update_sender.log
              = c.update_sender.log ++ [TxUpdate.updated tx.id]) := by
  refine ⟨fun c id r => ⟨rfl, rfl, rfl, rfl, rfl, rfl⟩, ?_, ?_, ?_⟩
  · intro p c valid tx
    unfold TxPool.insert_one
    split
    · exact ⟨fun h => by simp [Except.isOk, Except.toBool] at h, fun _ => rfl⟩
    · split
      · exact ⟨fun _ => ⟨rfl, rfl⟩, fun h => by simp [Except.isOk, Except.toBool] at h⟩
      · exact ⟨fun h => by simp [Except.isOk, Except.toBool] at h, fun _ => rfl⟩
  · intro p c i
    unfold TxPool.remove_one
    split
    · exact ⟨fun _ => ⟨rfl, rfl⟩, fun h => by simp at h⟩
    · exact ⟨fun h => absurd rfl h, fun _ => rfl⟩
  · intro p c tx h
    unfold TxPool.block_update_one
    rw [h]
    exact ⟨rfl, rfl⟩

/-- Witness for C1 at a concrete accepted insertion and a concrete block
completion. -/
theorem C1_witness :
    (TxPool.new.insert_one (TxStatusChange.new 100) (fun _ => true)
        ⟨1, 2, 3⟩).2.1.status_sender.log
      = (TxStatusChange.new 100).status_sender.log ++ [TxStatus.Submitted]
    ∧ (TxPool.new.insert_one (TxStatusChange.new 100) (fun _ => true)
        ⟨1, 2, 3⟩).2.1.update_sender.log
      = (TxStatusChange.new 100).update_sender.log ++ [TxUpdate.updated 1]
    ∧ (TxPool.block_update_one { txs := [⟨7, 1, 1⟩] } (TxStatusChange.new 100)
        ⟨7, 1, 1⟩).2.status_sender.log
      = (TxStatusChange.new 100).status_sender.log ++ [TxStatus.Completed] :=
  ⟨((C1_status_update_pairing.2.1 TxPool.new (TxStatusChange.new 100)
      (fun _ => true) ⟨1, 2, 3⟩).1 (by decide)).1,
   ((C1_status_update_pairing.2.1 TxPool.new (TxStatusChange.new 100)
      (fun _ => true) ⟨1, 2, 3⟩).1 (by decide)).2,
   ((C1_status_update_pairing.2.2.2 { txs := [⟨7, 1, 1⟩] } (TxStatusChange.new 100)
      ⟨7, 1, 1⟩) (by decide)).1⟩

/-- C3: the gossip-arrival branch of the task run loop leaves the
peer-transport port untouched for every gossip outcome, and a gossiped
transaction is inserted into the pool with the status sink. -/
theorem C3_gossip_no_rebroadcast (t : ServiceTask) (valid : PoolTx → Bool)
    (item : Option GossipData) :
    (ServiceTask.run t valid (RunEvent.gossip item)).1.shared.p2p = t.shared.p2p
    ∧ (∀ (g : GossipData) (tx : PoolTx), item = some g → g.data = some tx →
        (ServiceTask.run t valid (RunEvent.gossip item)).1.shared.txpool
          = (t.shared.txpool.insert t.shared.tx_status_sender valid [tx]).1
        ∧ (ServiceTask.run t valid (RunEvent.gossip item)).1.shared.tx_status_sender
          = (t.shared.txpool.insert t.shared.tx_status_sender valid [tx]).2.1) := by
  constructor
  · cases item with
    | none => rfl
    | some g =>
      obtain ⟨d⟩ := g
      cases d with
      | none => rfl
      | some tx => rfl
  · intro g tx hitem hdata
    subst hitem
    obtain ⟨d⟩ := g
    cases hdata
    exact ⟨rfl, rfl⟩

/-- Witness for C3 at a concrete gossiped transaction. -/
theorem C3_witness :
    (ServiceTask.run (new_service { broadcasts := [4] }) (fun _ => true)
      (RunEvent.gossip (some { data := some ⟨1, 2, 3⟩ }))).1.shared.p2p
        = (new_service { broadcasts := [4] }).shared.p2p
    ∧ (ServiceTask.run (new_service { broadcasts := [4] }) (fun _ => true)
        (RunEvent.gossip (some { data := some ⟨1, 2, 3⟩ }))).1.shared.txpool
      = ((new_service { broadcasts := [4] }).shared.txpool.insert
          (new_service { broadcasts := [4] }).shared.tx_status_sender
          (fun _ => true) [⟨1, 2, 3⟩]).1 :=
  ⟨(C3_gossip_no_rebroadcast (new_service { broadcasts := [4] }) (fun _ => true)
      (some { data := some ⟨1, 2, 3⟩ })).1,
   ((C3_gossip_no_rebroadcast (new_service { broadcasts := [4] }) (fun _ => true)
      (some { data := some ⟨1, 2, 3⟩ })).2 { data := some ⟨1, 2, 3⟩ } ⟨1, 2, 3⟩
      rfl rfl).1⟩

/-- C4: the external insertion path attempts exactly one peer broadcast per
accepted transaction (in order) and none for rejected ones; the insertion
results and the pool and sink states are those of the pool insert, and the
whole outcome is independent of the broadcast success oracle — a broadcast
failure neither alters the returned results nor rolls back acceptance. -/
theorem C4_broadcast_per_accepted (s : SharedState) (valid : PoolTx → Bool)
    (b1 b2 : TxId → Bool) (txs : List PoolTx) :
    (SharedState.insert s valid b1 txs).2
      = (s.txpool.insert s.tx_status_sender valid txs).2.2
    ∧ (SharedState.insert s valid b1 txs).1.txpool
      = (s.txpool.insert s.tx_status_sender valid txs).1
    ∧ (SharedState.insert s valid b1 txs).1.tx_status_sender
      = (s.txpool.insert s.tx_status_sender valid txs).2.1
    ∧ (SharedState.insert s valid b1 txs).1.p2p.broadcasts
      = s.p2p.broadcasts
        ++ acceptedIds ((s.txpool.insert s.tx_status_sender valid txs).2.2.zip txs)
    ∧ SharedState.insert s valid b1 txs = SharedState.insert s valid b2 txs := by
  refine ⟨rfl, rfl, rfl, ?_, ?_⟩
  · simp [SharedState.insert, broadcastAccepted_eq]
  · simp [SharedState.insert, broadcastAccepted_eq]

/-- C10: a gossip envelope carrying no transaction payload performs no pool
insertion (the task state is unchanged) and returns the do-not-continue
signal, even though neither the shutdown signal fired nor any stream
terminated. -/
theorem C10_empty_gossip_stops (t : ServiceTask) (valid : PoolTx → Bool) :
    ServiceTask.run t valid (RunEvent.gossip (some { data := none })) = (t, false) :=
  rfl

/-- Counterexample to C5 as stated: on a gossip item that is present (the
stream did not terminate) but carries no transaction, with the watcher still
started, the iteration returns the do-not-continue signal instead of
continuing. -/
theorem C5_counterexample :
    ServiceTask.run (new_service { broadcasts := [] }) (fun _ => true)
      (RunEvent.gossip (some { data := none }))
      = (new_service { broadcasts := [] }, false) :=
  rfl

/-- C5 (amended): one ready event is serviced per iteration; the iteration
returns do-not-continue when the watcher reports no longer started, when a
stream terminates, or when a gossip envelope carries no transaction payload;
a gossiped transaction is inserted and the iteration continues; a
committed-block notification triggers `block_update` and continues. -/
theorem C5_run_iteration (t : ServiceTask) (valid : PoolTx → Bool) :
    ServiceTask.run t valid RunEvent.watcherStopped = (t, false)
    ∧ ServiceTask.run t valid (RunEvent.gossip none) = (t, false)
    ∧ (∀ g : GossipData, g.data = none →
        ServiceTask.run t valid (RunEvent.gossip (some g)) = (t, false))
    ∧ (∀ (g : GossipData) (tx : PoolTx), g.data = some tx →
        ServiceTask.run t valid (RunEvent.gossip (some g)) =
          ({ shared := { t.shared with
              txpool := (t.shared.txpool.insert t.shared.tx_status_sender valid [tx]).1,
              tx_status_sender :=
                (t.shared.txpool.insert t.shared.tx_status_sender valid [tx]).2.1 } },
           true))
    ∧ ServiceTask.run t valid (RunEvent.committedBlock none) = (t, false)
    ∧ (∀ res : ImportResult,
        ServiceTask.run t valid (RunEvent.committedBlock (some res)) =
          ({ shared := { t.shared with
              txpool := (t.shared.txpool.block_update t.shared.tx_status_sender
                res.sealed_block).1,
              tx_status_sender :=
                (t.shared.txpool.block_update t.shared.tx_status_sender
                  res.sealed_block).2 } },
           true)) := by
  refine ⟨rfl, rfl, ?_, ?_, rfl, fun res => rfl⟩
  · intro g hg
    obtain ⟨d⟩ := g
    cases hg
    rfl
  · intro g tx hg
    obtain ⟨d⟩ := g
    cases hg
    rfl

/-- Witness for the amended C5 at a concrete empty-payload envelope and a
concrete gossiped transaction. -/
theorem C5_witness :
    ServiceTask.run (new_service { broadcasts := [] }) (fun _ => false)
        (RunEvent.gossip (some { data := none }))
      = (new_service { broadcasts := [] }, false)
    ∧ (ServiceTask.run (new_service { broadcasts := [] }) (fun _ => false)
        (RunEvent.gossip (some { data := some ⟨1, 2, 3⟩ }))).2 = true :=
  ⟨(C5_run_iteration (new_service { broadcasts := [] }) (fun _ => false)).2.2.1
      { data := none } rfl,
   by rw [((C5_run_iteration (new_service { broadcasts := [] })
      (fun _ => false)).2.2.2.1 { data := some ⟨1, 2, 3⟩ } ⟨1, 2, 3⟩ rfl)]⟩

/-- C6: both broadcast topics are created with capacity 100 by the service
constructor; every publish operation returns normally and records its
emission for any state — including zero subscribers, where the underlying
channel send reports an error that the senders discard: publishing never
fails the caller. -/
theorem C6_fanout_fire_and_forget (p2p : P2PState) :
    (new_service p2p).shared.tx_status_sender.status_sender.capacity = 100
    ∧ (new_service p2p).shared.tx_status_sender.update_sender.capacity = 100
    ∧ (∀ capacity : Nat,
        (TxStatusChange.new capacity).status_sender.capacity = capacity
        ∧ (TxStatusChange.new capacity).update_sender.capacity = capacity)
    ∧ (∀ (c : TxStatusChange) (id : Bytes32) (r : TxPoolError),
        (c.send_submitted id).status_sender.log
            = c.status_sender.log ++ [TxStatus.Submitted]
        ∧ (c.send_complete id).status_sender.log
            = c.status_sender.log ++ [TxStatus.Completed]
        ∧ (c.send_squeezed_out id r).status_sender.log
            = c.status_sender.log ++ [TxStatus.SqueezedOut r])
    ∧ (∀ (s : BroadcastSender TxStatus) (m : TxStatus), s.subscribers = 0 →
        (s.send m).2 = Except.error () ∧ (s.send m).1.log = s.log ++ [m]) := by
  refine ⟨rfl, rfl, fun capacity => ⟨rfl, rfl⟩,
    fun c id r => ⟨rfl, rfl, rfl⟩, ?_⟩
  intro s m h
  constructor
  · simp [BroadcastSender.send, h]
  · rfl

/-- Witness for C6 at the freshly created channel, which has zero
subscribers. -/
theorem C6_witness :
    (broadcastChannel TxStatus 100).subscribers = 0
    ∧ ((broadcastChannel TxStatus 100).send TxStatus.Submitted).2 = Except.error ()
    ∧ ((broadcastChannel TxStatus 100).send TxStatus.Submitted).1.log
        = (broadcastChannel TxStatus 100).log ++ [TxStatus.Submitted] :=
  ⟨rfl,
   ((C6_fanout_fire_and_forget { broadcasts := [] }).2.2.2.2
      (broadcastChannel TxStatus 100) TxStatus.Submitted rfl).1,
   ((C6_fanout_fire_and_forget { broadcasts := [] }).2.2.2.2
      (broadcastChannel TxStatus 100) TxStatus.Submitted rfl).2⟩

/-- The storage-model insert makes the new value readable under its key. -/
theorem assocLookup_assocInsert_self (m : List (Nat × Nat)) (k v : Nat) :
    assocLookup (assocInsert m k v).1 k = some v := by
  simp [assocLookup, assocInsert]

/-- The storage-model insert reports exactly the previously stored value. -/
theorem assocInsert_reports_prior (m : List (Nat × Nat)) (k v : Nat) :
    (assocInsert m k v).2 = assocLookup m k :=
  rfl

/-- C7: staging a consensus seal and staging a header merkle root both
succeed on overwrite: each returns exactly the previously stored value
(`some prior` when one existed, `none` otherwise) and leaves the new value
readable under the key — an overwrite is reported to the caller, never a
failure and never silently ignored. -/
theorem C7_insert_reports_overwrite (db : Database) (i c h r : Nat) :
    (db.seal_block i c).2 = assocLookup db.sealed_block_consensus i
    ∧ assocLookup (db.seal_block i c).1.sealed_block_consensus i = some c
    ∧ (db.insert_block_header_merkle_root h r).2
        = assocLookup db.block_header_merkle_roots h
    ∧ assocLookup
        (db.insert_block_header_merkle_root h r).1.block_header_merkle_roots h
      = some r := by
  refine ⟨rfl, ?_, rfl, ?_⟩
  · exact assocLookup_assocInsert_self db.sealed_block_consensus i c
  · exact assocLookup_assocInsert_self db.block_header_merkle_roots h r

/-- C8: committing an uncommitted result with the canonical staged block
writes makes the consensus seal, the header merkle root and the
latest-height marker durable together; a failed commit leaves the database
exactly unchanged, so no staged write of the block is visible afterwards. -/
theorem C8_commit_all_or_nothing (α : Type) (res : α) (db : Database)
    (i c h r : Nat) (u : UncommittedResult α) :
    (commit_result db ⟨res, stageBlock i c h r⟩ true).2 = Except.ok ()
    ∧ assocLookup
        (commit_result db ⟨res, stageBlock i c h r⟩ true).1.sealed_block_consensus i
      = some c
    ∧ assocLookup
        (commit_result db ⟨res, stageBlock i c h r⟩ true).1.block_header_merkle_roots h
      = some r
    ∧ (commit_result db ⟨res, stageBlock i c h r⟩ true).1.latest_height_marker
      = some h
    ∧ (commit_result db u false).2 = Except.error ()
    ∧ (commit_result db u false).1 = db := by
  refine ⟨rfl, ?_, ?_, rfl, ?_, ?_⟩
  · simp [commit_result, StorageTransaction.commit, stageBlock, applyWrite,
      Database.seal_block, Database.insert_block_header_merkle_root,
      assocInsert, assocLookup]
  · simp [commit_result, StorageTransaction.commit, stageBlock, applyWrite,
      Database.seal_block, Database.insert_block_header_merkle_root,
      assocInsert, assocLookup]
  · simp [commit_result, StorageTransaction.commit]
  · simp [commit_result, StorageTransaction.commit]

/-- C9: the import driver invokes `commit_result` exactly when the
pre-commit gate `verify_block_fields` succeeds; when verification fails the
commit is never invoked and the database is untouched. -/
theorem C9_verify_gates_commit (α : Type) (verifier : Nat → Nat → Bool)
    (consensus block_id : Nat) (db : Database) (u : UncommittedResult α)
    (storage_ok : Bool) :
    (import_block verifier consensus block_id db u storage_ok).2.2
      = verifier consensus block_id
    ∧ (verifier consensus block_id = false →
        import_block verifier consensus block_id db u storage_ok
          = (db, Except.error (), false)) := by
  constructor
  · by_cases hv : verifier consensus block_id
    · simp [import_block, verify_block_fields, hv]
    · simp [import_block, verify_block_fields, hv]
    -- the commit, when it happens, follows the successful verification by
    -- construction of the driver
  · intro hv
    simp [import_block, verify_block_fields, hv]

/-- Witness for C9 at a rejecting verifier. -/
theorem C9_witness :
    ((fun _ _ => false) 5 6 = false)
    ∧ import_block (fun _ _ => false) 5 6
        { sealed_block_consensus := [], block_header_merkle_roots := [],
          latest_height_marker := none }
        (⟨0, stageBlock 6 7 8 9⟩ : UncommittedResult Nat) true
      = ({ sealed_block_consensus := [], block_header_merkle_roots := [],
           latest_height_marker := none }, Except.error (), false) :=
  ⟨rfl,
   (C9_verify_gates_commit Nat (fun _ _ => false) 5 6
      { sealed_block_consensus := [], block_header_merkle_roots := [],
        latest_height_marker := none }
      ⟨0, stageBlock 6 7 8 9⟩ true).2 rfl⟩

/-- The greedy selection fold keeps its accumulator sum equal to the gas of
what it has taken, and never exceeds the budget. -/
theorem selectFold_gas (G : Nat) :
    ∀ (l acc : List PoolTx) (used : Nat),
    used = (acc.map PoolTx.gas).sum → used ≤ G →
    (l.foldl (selectStep G) (acc, used)).2
        = ((l.foldl (selectStep G) (acc, used)).1.map PoolTx.gas).sum
    ∧ (l.foldl (selectStep G) (acc, used)).2 ≤ G := by
  intro l
  induction l with
  | nil => intro acc used h1 h2; exact ⟨h1, h2⟩
  | cons tx l ih =>
    intro acc used h1 h2
    simp only [List.foldl_cons]
    by_cases hfit : used + tx.gas ≤ G
    · have hstep : selectStep G (acc, used) tx = (acc ++ [tx], used + tx.gas) := by
        simp [selectStep, hfit]
      rw [hstep]
      exact ih (acc ++ [tx]) (used + tx.gas) (by simp [h1]) hfit
    · have hstep : selectStep G (acc, used) tx = (acc, used) := by
        simp [selectStep, hfit]
      rw [hstep]
      exact ih acc used h1 h2

/-- The greedy selection fold appends a subsequence of its candidate list to
its accumulator. -/
theorem selectFold_sublist (G : Nat) :
    ∀ (l acc : List PoolTx) (used : Nat),
    ∃ sel : List PoolTx,
      (l.foldl (selectStep G) (acc, used)).1 = acc ++ sel ∧ sel.Sublist l := by
  intro l
  induction l with
  | nil => intro acc used; exact ⟨[], by simp, List.Sublist.refl []⟩
  | cons tx l ih =>
    intro acc used
    simp only [List.foldl_cons]
    by_cases hfit : used + tx.gas ≤ G
    · have hstep : selectStep G (acc, used) tx = (acc ++ [tx], used + tx.gas) := by
        simp [selectStep, hfit]
      rw [hstep]
      obtain ⟨sel, hsel, hsub⟩ := ih (acc ++ [tx]) (used + tx.gas)
      exact ⟨tx :: sel, by simp [hsel], List.Sublist.cons₂ tx hsub⟩
    · have hstep : selectStep G (acc, used) tx = (acc, used) := by
        simp [selectStep, hfit]
      rw [hstep]
      obtain ⟨sel, hsel, hsub⟩ := ih acc used
      exact ⟨sel, hsel, List.Sublist.cons tx hsub⟩

/-- The selection algorithm respects the gas budget. -/
theorem select_transactions_gas_le (txs : List PoolTx) (G : Nat) :
    ((TransactionSelector.select_transactions txs G).map PoolTx.gas).sum ≤ G := by
  have h := selectFold_gas G (txs.insertionSort selectionOrder) [] 0 (by simp)
    (Nat.zero_le G)
  unfold TransactionSelector.select_transactions
  exact h.1 ▸ h.2

/-- The selection algorithm yields a subsequence of the sorted candidates. -/
theorem select_transactions_sublist (txs : List PoolTx) (G : Nat) :
    (TransactionSelector.select_transactions txs G).Sublist
      (txs.insertionSort selectionOrder) := by
  obtain ⟨sel, hsel, hsub⟩ :=
    selectFold_sublist G (txs.insertionSort selectionOrder) [] 0
  unfold TransactionSelector.select_transactions
  rw [hsel]
  simpa using hsub

/-- Removing the entries of one id shortens the pool by exactly the number
of occurrences of that id. -/
theorem filter_ne_length (i : TxId) :
    ∀ l : List PoolTx,
    (l.filter (fun t => t.id ≠ i)).length + (l.map PoolTx.id).count i
      = l.length := by
  intro l
  induction l with
  | nil => rfl
  | cons t l ih =>
    by_cases h : t.id = i
    · have hfilter : (t :: l).filter (fun s => s.id ≠ i)
          = l.filter (fun s => s.id ≠ i) := by
        simp [List.filter_cons, h]
      have hcount : ((t :: l).map PoolTx.id).count i
          = (l.map PoolTx.id).count i + 1 := by
        simp [List.count_cons, h]
      rw [hfilter, hcount]
      simp only [List.length_cons]
      omega
    · have hfilter : (t :: l).filter (fun s => s.id ≠ i)
          = t :: l.filter (fun s => s.id ≠ i) := by
        simp [List.filter_cons, h]
      have hcount : ((t :: l).map PoolTx.id).count i
          = (l.map PoolTx.id).count i := by
        simp [List.count_cons, h]
      rw [hfilter, hcount]
      simp only [List.length_cons]
      omega

/-- Removing the entries of one id leaves the occurrence count of any other
id unchanged. -/
theorem filter_ne_count (i j : TxId) (hij : j ≠ i) :
    ∀ l : List PoolTx,
    ((l.filter (fun t => t.id ≠ i)).map PoolTx.id).count j
      = (l.map PoolTx.id).count j := by
  intro l
  induction l with
  | nil => rfl
  | cons t l ih =>
    by_cases h : t.id = i
    · have hfilter : (t :: l).filter (fun s => s.id ≠ i)
          = l.filter (fun s => s.id ≠ i) := by
        simp [List.filter_cons, h]
      have hcount : ((t :: l).map PoolTx.id).count j
          = (l.map PoolTx.id).count j := by
        simp [List.count_cons, h, hij]
      rw [hfilter, hcount, ih]
    · have hfilter : (t :: l).filter (fun s => s.id ≠ i)
          = t :: l.filter (fun s => s.id ≠ i) := by
        simp [List.filter_cons, h]
      rw [hfilter]
      simp only [List.map_cons, List.count_cons, ih]

/-- A member of the pool after the post-selection removal fold was a member
before and carries none of the removed ids. -/
theorem mem_removeFold :
    ∀ (sel : List PoolTx) (p : TxPool) (t : PoolTx),
    t ∈ (sel.foldl (fun q tx => q.remove_committed_tx tx.id) p).txs →
    t ∈ p.txs ∧ ∀ s ∈ sel, t.id ≠ s.id := by
  intro sel
  induction sel with
  | nil => intro p t h; exact ⟨h, by simp⟩
  | cons x sel ih =>
    intro p t h
    simp only [List.foldl_cons] at h
    obtain ⟨hmem, hrest⟩ := ih (p.remove_committed_tx x.id) t h
    have hx : t ∈ p.txs ∧ t.id ≠ x.id := by
      simpa [TxPool.remove_committed_tx, List.mem_filter] using hmem
    refine ⟨hx.1, fun s hs => ?_⟩
    rcases List.mem_cons.mp hs with rfl | hs2
    · exact hx.2
    · exact hrest s hs2

/-- The post-selection removal fold removes exactly one entry per removed
id, when the removed ids are distinct and each occurs exactly once. -/
theorem removeFold_length :
    ∀ (sel : List PoolTx) (p : TxPool),
    (sel.map PoolTx.id).Nodup →
    (∀ s ∈ sel, (p.txs.map PoolTx.id).count s.id = 1) →
    (sel.foldl (fun q tx => q.remove_committed_tx tx.id) p).txs.length + sel.length
      = p.txs.length := by
  intro sel
  induction sel with
  | nil => intro p _ _; simp
  | cons x sel ih =>
    intro p hnd hcount
    simp only [List.foldl_cons]
    have hx : (p.txs.map PoolTx.id).count x.id = 1 := hcount x (by simp)
    have hlen : (p.remove_committed_tx x.id).txs.length + 1 = p.txs.length := by
      have h := filter_ne_length x.id p.txs
      rw [hx] at h
      simpa [TxPool.remove_committed_tx] using h
    have hnds : (x.id ∉ sel.map PoolTx.id) ∧ (sel.map PoolTx.id).Nodup :=
      List.nodup_cons.mp (by simpa using hnd)
    have hcount2 : ∀ s ∈ sel,
        ((p.remove_committed_tx x.id).txs.map PoolTx.id).count s.id = 1 := by
      intro s hs
      have hne : s.id ≠ x.id := by
        intro he
        exact hnds.1 (he ▸ List.mem_map.mpr ⟨s, hs, rfl⟩)
      have h := filter_ne_count x.id s.id hne p.txs
      simp only [TxPool.remove_committed_tx]
      rw [h]
      exact hcount s (List.mem_cons_of_mem x hs)
    have h := ih (p.remove_committed_tx x.id) hnds.2 hcount2
    simp only [List.length_cons]
    omega

/-- Every removed id is absent from the pool after the removal fold. -/
theorem removeFold_absent (sel : List PoolTx) (p : TxPool) (s : PoolTx)
    (hs : s ∈ sel) :
    (sel.foldl (fun q tx => q.remove_committed_tx tx.id) p).find_one s.id
      = none := by
  simp only [TxPool.find_one]
  apply List.find?_eq_none.mpr
  intro t ht
  have h := (mem_removeFold sel p t ht).2 s hs
  simpa using h

/-- C2: for every gas budget `G`, `select_transactions` returns a sequence
whose summed gas is at most `G`, and (within the same single state
transition on the guarded pool, the embedding of the single lock
acquisition) removes every selected transaction from the pool as committed:
`pending_number` decreases by exactly the number selected, and `find_one`
on each selected id returns absent. -/
theorem C2_selection_budget_and_eviction (s : SharedState) (G : Nat)
    (hnd : (s.txpool.txs.map PoolTx.id).Nodup) :
    (((s.select_transactions G).2.map PoolTx.gas).sum ≤ G)
    ∧ (s.select_transactions G).1.pending_number
        + (s.select_transactions G).2.length = s.pending_number
    ∧ ∀ tx ∈ (s.select_transactions G).2,
        (s.select_transactions G).1.find_one tx.id = none := by
  have hperm := List.perm_insertionSort selectionOrder s.txpool.txs
  have hsub := select_transactions_sublist s.txpool.txs G
  have hmem : ∀ x ∈ TransactionSelector.select_transactions s.txpool.txs G,
      x ∈ s.txpool.txs := fun x hx => hperm.subset (hsub.subset hx)
  have hmap_perm := hperm.map PoolTx.id
  have hsorted_nd :
      ((s.txpool.txs.insertionSort selectionOrder).map PoolTx.id).Nodup :=
    hmap_perm.nodup_iff.mpr hnd
  have hsub_map := hsub.map PoolTx.id
  have hsel_nd :
      ((TransactionSelector.select_transactions s.txpool.txs G).map PoolTx.id).Nodup :=
    hsorted_nd.sublist hsub_map
  have hcount : ∀ x ∈ TransactionSelector.select_transactions s.txpool.txs G,
      (s.txpool.txs.map PoolTx.id).count x.id = 1 := by
    intro x hx
    exact List.count_eq_one_of_mem hnd (List.mem_map.mpr ⟨x, hmem x hx, rfl⟩)
  refine ⟨?_, ?_, ?_⟩
  · simpa [SharedState.select_transactions, TxPool.includable] using
      select_transactions_gas_le s.txpool.txs G
  · have h := removeFold_length
      (TransactionSelector.select_transactions s.txpool.txs G) s.txpool
      hsel_nd hcount
    simpa [SharedState.select_transactions, TxPool.includable,
      SharedState.pending_number, TxPool.pending_number] using h
  · intro tx htx
    have hmem2 : tx ∈ TransactionSelector.select_transactions s.txpool.txs G := by
      simpa [SharedState.select_transactions, TxPool.includable] using htx
    have h := removeFold_absent
      (TransactionSelector.select_transactions s.txpool.txs G) s.txpool tx hmem2
    simpa [SharedState.select_transactions, TxPool.includable,
      SharedState.find_one] using h

/-- Witness for C2 on a concrete three-entry pool with budget 100: the two
highest-priced fitting transactions are selected and evicted. -/
theorem C2_witness :
    ((sharedExample.txpool.txs.map PoolTx.id).Nodup)
    ∧ ((((sharedExample.select_transactions 100).2.map PoolTx.gas).sum ≤ 100)
      ∧ (sharedExample.select_transactions 100).1.pending_number
          + (sharedExample.select_transactions 100).2.length
        = sharedExample.pending_number
      ∧ ∀ tx ∈ (sharedExample.select_transactions 100).2,
          (sharedExample.select_transactions 100).1.find_one tx.id = none) :=
  ⟨by decide, C2_selection_budget_and_eviction sharedExample 100 (by decide)⟩
